import Mathlib

/-
Verification of the DailyWell asset-generation scripts.

The tensor code of `generate_assets.py` is embedded shallowly: a tensor is a
shape together with a total indexing function into ℚ, transcendental
primitives (exp, log, sin, cos, silu, tanh-gelu, rsqrt) are fields of an
abstract `ScalarOps` record, a safetensors state dict is a partial map from
string keys to tensors, and operations that raise in PyTorch (`F.linear`
called with a `None` weight, a missing dict key, a failed shape unpack)
return `none`.  The `.to(device=..., dtype=...)` casts of the source are
identities here, since the scalars are exact rationals.
-/

set_option autoImplicit false

namespace DW

/-- Abstract scalar primitives used pointwise by the tensor code. -/
structure ScalarOps where
  exp : ℚ → ℚ
  log : ℚ → ℚ
  sin : ℚ → ℚ
  cos : ℚ → ℚ
  silu : ℚ → ℚ
  geluTanh : ℚ → ℚ
  rsqrt : ℚ → ℚ

/-- A tensor: a shape and a total indexing function (multi-index to value). -/
@[ext]
structure Tensor where
  shape : List Nat
  data : List Nat → ℚ

/-- A safetensors state dict: keys to tensors, `none` for a missing key. -/
def SD : Type := String → Option Tensor

/-- The empty state dict. -/
def emptySD : SD := fun _ => none

/-- Finite sum of `f 0 + ... + f (n-1)`. -/
def sumR (n : Nat) (f : Nat → ℚ) : ℚ :=
  (List.range n).foldr (fun j a => f j + a) 0

namespace Tensor

/-- Pointwise map over a tensor. -/
def map1 (f : ℚ → ℚ) (t : Tensor) : Tensor :=
  ⟨t.shape, fun i => f (t.data i)⟩

/-- Multiplication by a scalar constant (`t * c`). -/
def scale (c : ℚ) (t : Tensor) : Tensor :=
  t.map1 (fun v => v * c)

/-- Elementwise addition (shape taken from the first operand, as when the
operands already agree). -/
def add (a b : Tensor) : Tensor :=
  ⟨a.shape, fun i => a.data i + b.data i⟩

/-- Elementwise subtraction. -/
def sub (a b : Tensor) : Tensor :=
  ⟨a.shape, fun i => a.data i - b.data i⟩

/-- Models `torch.zeros(shape)`. -/
def zerosT (s : List Nat) : Tensor :=
  ⟨s, fun _ => 0⟩

/-- A 0-d value unsqueezed to shape `[1]`, as in `sigma.unsqueeze(0) * 1000`. -/
def scalar1 (q : ℚ) : Tensor :=
  ⟨[1], fun _ => q⟩

end Tensor

/-- Models `F.silu` applied elementwise. -/
def siluT (ops : ScalarOps) (t : Tensor) : Tensor :=
  t.map1 ops.silu

/-- Models `F.linear(x, w, b)`: acts on the last dimension; `w : [out, in]`. -/
def linearT (x w : Tensor) (b : Option Tensor) : Tensor :=
  ⟨x.shape.dropLast ++ [w.shape.headD 0],
   fun i =>
     sumR (w.shape.getD 1 0)
       (fun k => w.data [i.getLastD 0, k] * x.data (i.dropLast ++ [k]))
     + (match b with
        | some bb => bb.data [i.getLastD 0]
        | none => 0)⟩

/-- Models `F.linear` with a possibly-`None` weight: PyTorch raises when the weight
is `None`, which the embedding records as `none`. -/
def FlinearT (x : Tensor) (w : Option Tensor) (b : Option Tensor) : Option Tensor :=
  match w with
  | some ww => some (linearT x ww b)
  | none => none

/-- Models `F.layer_norm(x, x.shape[-1:])` (no affine parameters, eps `1e-5`). -/
def layerNormLast (ops : ScalarOps) (t : Tensor) : Tensor :=
  ⟨t.shape, fun i =>
    let n := t.shape.getLastD 1
    let mu := sumR n (fun j => t.data (i.dropLast ++ [j])) / (n : ℚ)
    let v2 := sumR n (fun j => (t.data (i.dropLast ++ [j]) - mu) ^ 2) / (n : ℚ)
    (t.data i - mu) * ops.rsqrt (v2 + 1 / 100000)⟩

/-- Part `k` of `t.chunk(parts, dim=-1)` for an evenly divisible last dim. -/
def chunkLast (parts k : Nat) (t : Tensor) : Tensor :=
  ⟨t.shape.dropLast ++ [t.shape.getLastD 0 / parts],
   fun i => t.data (i.dropLast ++ [k * (t.shape.getLastD 0 / parts) + i.getLastD 0])⟩

/-- Models `h * (1 + scale.unsqueeze(1)) + shift.unsqueeze(1)` for
`h : [B, L, D]` and `scale, shift : [B, D]`. -/
def modulate3 (h s sh : Tensor) : Tensor :=
  ⟨h.shape, fun i =>
    match i with
    | [b, l, d] => h.data [b, l, d] * (1 + s.data [b, d]) + sh.data [b, d]
    | _ => 0⟩

/-- Models `x + gate.unsqueeze(1) * h` for `x, h : [B, L, D]` and `gate : [B, D]`. -/
def gateAdd (x g h : Tensor) : Tensor :=
  ⟨x.shape, fun i =>
    match i with
    | [b, l, d] => x.data [b, l, d] + g.data [b, d] * h.data [b, l, d]
    | _ => 0⟩

/-- Key of a weight of transformer block `i`
(`model.diffusion_model.transformer_blocks.{i}.` plus the name). -/
def blockKey (i : Nat) (name : String) : String :=
  "model.diffusion_model.transformer_blocks." ++ toString i ++ "." ++ name

/-- Models `apply_transformer_block` of `generate_assets.py`: modulation from the
timestep embedding, layer norms, gating and the MLP; the `context` argument
is accepted but never read, and no attention is computed.  Returns `none`
when `img_mlp.net.0.proj.weight` is present but `img_mlp.net.2.weight` is
missing (PyTorch raises on `F.linear` with a `None` weight). -/
def apply_transformer_block (ops : ScalarOps) (x context timestep_emb : Tensor)
    (block_idx : Nat) (transformer_sd : SD) (device dtype : Unit) : Option Tensor :=
  let get_weight := fun (name : String) => transformer_sd (blockKey block_idx name)
  match get_weight "img_mod.1.weight" with
  | none => some x
  | some img_mod_w =>
    let img_mod_b := get_weight "img_mod.1.bias"
    let mod := siluT ops timestep_emb
    let mod := linearT mod img_mod_w img_mod_b
    let shift := chunkLast 6 0 mod
    let scale := chunkLast 6 1 mod
    let gate := chunkLast 6 2 mod
    let shift2 := chunkLast 6 3 mod
    let scale2 := chunkLast 6 4 mod
    let gate2 := chunkLast 6 5 mod
    let h := x
    let h := layerNormLast ops h
    let h := modulate3 h scale shift
    let x := gateAdd x gate h
    let h := layerNormLast ops x
    let h := modulate3 h scale2 shift2
    let mlp_w1 := get_weight "img_mlp.net.0.proj.weight"
    let mlp_b1 := get_weight "img_mlp.net.0.proj.bias"
    let mlp_w2 := get_weight "img_mlp.net.2.weight"
    let mlp_b2 := get_weight "img_mlp.net.2.bias"
    match mlp_w1 with
    | some w1 =>
      let h := linearT h w1 mlp_b1
      let h := h.map1 ops.geluTanh
      match FlinearT h mlp_w2 mlp_b2 with
      | some h2 => some (gateAdd x gate2 h2)
      | none => none
    | none => some (gateAdd x gate2 h)

/-- Key of a top-level transformer weight (`model.diffusion_model.` prefix). -/
def dmKey (name : String) : String :=
  "model.diffusion_model." ++ name

/-- Key of the first timestep-embedder linear weight. -/
def tEmbW1Key : String := dmKey "time_text_embed.timestep_embedder.linear_1.weight"

/-- Key of the first timestep-embedder linear bias. -/
def tEmbB1Key : String := dmKey "time_text_embed.timestep_embedder.linear_1.bias"

/-- Key of the second timestep-embedder linear weight. -/
def tEmbW2Key : String := dmKey "time_text_embed.timestep_embedder.linear_2.weight"

/-- Key of the second timestep-embedder linear bias. -/
def tEmbB2Key : String := dmKey "time_text_embed.timestep_embedder.linear_2.bias"

/-- The sinusoidal timestep embedding built inline by `run_transformer`:
`half_dim = 128`, `embScale = log(10000) / (half_dim - 1)`,
frequencies `exp(k * -embScale)`, and `cat([sin(t*f), cos(t*f)], dim=-1)`
over a 1-d `timestep` of shape `[B]`, giving shape `[B, 256]`. -/
def sinusoidalEmb (ops : ScalarOps) (timestep : Tensor) : Tensor :=
  let half_dim : Nat := 128
  let embScale := ops.log 10000 / ((half_dim : ℚ) - 1)
  ⟨[timestep.shape.headD 0, 2 * half_dim],
   fun i =>
     match i with
     | [b, j] =>
       if j < half_dim then
         ops.sin (timestep.data [b] * ops.exp ((j : ℚ) * -embScale))
       else
         ops.cos (timestep.data [b] * ops.exp (((j - half_dim : Nat) : ℚ) * -embScale))
     | _ => 0⟩

/-- The timestep-embedding stage of `run_transformer`: when
`linear_1.weight` is present the sinusoidal embedding is passed through
linear, SiLU, linear (`none` if `linear_2.weight` is then missing, since
`F.linear` is called with a `None` weight); otherwise the raw sinusoidal
embedding is used. -/
def computeTemb (ops : ScalarOps) (timestep : Tensor) (sd : SD) : Option Tensor :=
  let t_emb_w1 := sd tEmbW1Key
  let t_emb_b1 := sd tEmbB1Key
  let t_emb_w2 := sd tEmbW2Key
  let t_emb_b2 := sd tEmbB2Key
  let emb := sinusoidalEmb ops timestep
  match t_emb_w1 with
  | some w1 =>
    let temb := linearT emb w1 t_emb_b1
    let temb := siluT ops temb
    FlinearT temb t_emb_w2 t_emb_b2
  | none => some emb

/-- Models `F.pad(latent, (0, pad_w, 0, pad_h))`: zero-pad bottom/right. -/
def padHW (t : Tensor) (pad_w pad_h : Nat) : Tensor :=
  match t.shape with
  | [b, c, h, w] =>
    ⟨[b, c, h + pad_h, w + pad_w],
     fun i =>
       match i with
       | [bb, cc, y, x] => if y < h ∧ x < w then t.data [bb, cc, y, x] else 0
       | _ => 0⟩
  | _ => t

/-- Patchify `[B, C, H, W] -> [B, (H/2)*(W/2), C*4]`
(`reshape(b, ch, h/2, 2, w/2, 2).permute(0,2,4,1,3,5).reshape(...)`). -/
def patchify (batch ch h w : Nat) (t : Tensor) : Tensor :=
  ⟨[batch, h / 2 * (w / 2), ch * 4],
   fun i =>
     match i with
     | [b, s, j] => t.data [b, j / 4, 2 * (s / (w / 2)) + j % 4 / 2, 2 * (s % (w / 2)) + j % 2]
     | _ => 0⟩

/-- Unpatchify `[B, (H/2)*(W/2), C*4] -> [B, C, H, W]`
(`reshape(b, h/2, w/2, ch, 2, 2).permute(0,3,1,4,2,5).reshape(...)`). -/
def unpatchify (batch ch h w : Nat) (t : Tensor) : Tensor :=
  ⟨[batch, ch, h, w],
   fun i =>
     match i with
     | [b, c, y, x] => t.data [b, y / 2 * (w / 2) + x / 2, c * 4 + y % 2 * 2 + x % 2]
     | _ => 0⟩

/-- Models `x[:, :, :oh, :ow]`: crop the two spatial dimensions. -/
def crop4 (oh ow : Nat) (t : Tensor) : Tensor :=
  ⟨[t.shape.getD 0 0, t.shape.getD 1 0, min oh (t.shape.getD 2 0), min ow (t.shape.getD 3 0)],
   t.data⟩

/-- The block loop of `run_transformer`:
`for i in range(k): x = apply_transformer_block(x, context, temb, i, sd, ...)`,
run here as a recursion on the remaining count with the current index. -/
def applyBlocksGo (ops : ScalarOps) (context temb : Tensor) (sd : SD) :
    Nat → Nat → Tensor → Option Tensor
  | _, 0, x => some x
  | i, Nat.succ n, x =>
    match apply_transformer_block ops x context temb i sd () () with
    | some y => applyBlocksGo ops context temb sd (i + 1) n y
    | none => none

/-- Models `run_transformer` of `generate_assets.py`: pad to even spatial dims,
patchify, optional input projection, timestep embedding, at most
`min num_blocks 10` transformer blocks, optional norm-out modulation and
output projection, unpatchify and crop back. -/
def run_transformer (ops : ScalarOps) (latent timestep context : Tensor)
    (transformer_sd : SD) (num_blocks : Nat) : Option Tensor :=
  match latent.shape with
  | [batch, ch, orig_h, orig_w] =>
    let pad_h := (2 - orig_h % 2) % 2
    let pad_w := (2 - orig_w % 2) % 2
    let latent2 := if pad_h > 0 ∨ pad_w > 0 then padHW latent pad_w pad_h else latent
    let h := latent2.shape.getD 2 0
    let w := latent2.shape.getD 3 0
    let x := patchify batch ch h w latent2
    let img_in_w := transformer_sd (dmKey "img_in.weight")
    let img_in_b := transformer_sd (dmKey "img_in.bias")
    let x :=
      match img_in_w with
      | some wIn => linearT x wIn img_in_b
      | none => x
    (computeTemb ops timestep transformer_sd).bind fun temb =>
      let blocks_to_run := min num_blocks 10
      (applyBlocksGo ops context temb transformer_sd 0 blocks_to_run x).bind fun x2 =>
        let norm_out_w := transformer_sd (dmKey "norm_out.linear.weight")
        let norm_out_b := transformer_sd (dmKey "norm_out.linear.bias")
        let proj_out_w := transformer_sd (dmKey "proj_out.weight")
        let proj_out_b := transformer_sd (dmKey "proj_out.bias")
        let x3 :=
          match norm_out_w with
          | some wN =>
            let mod := siluT ops temb
            let mod := linearT mod wN norm_out_b
            let scale := chunkLast 2 0 mod
            let shift := chunkLast 2 1 mod
            modulate3 (layerNormLast ops x2) scale shift
          | none => x2
        let x4 :=
          match proj_out_w with
          | some wP => linearT x3 wP proj_out_b
          | none => x3
        let x5 := unpatchify batch ch h w x4
        let x6 := if pad_h > 0 ∨ pad_w > 0 then crop4 orig_h orig_w x5 else x5
        some x6
  | _ => none

/-- Source coordinate of PyTorch bilinear interpolation with
`align_corners=False` at integer output coordinate `dst` and scale 8:
`max(0, (dst + 0.5)/8 - 0.5)`. -/
def srcIndex8 (dst : Nat) : ℚ :=
  max 0 (((dst : ℚ) + 1 / 2) / 8 - 1 / 2)

/-- Models `F.interpolate(z, scale_factor=8, mode='bilinear', align_corners=False)`
on a `[B, C, H, W]` tensor. -/
def upsample8 (t : Tensor) : Tensor :=
  match t.shape with
  | [b, c, h, w] =>
    ⟨[b, c, 8 * h, 8 * w],
     fun i =>
       match i with
       | [bb, cc, y, x] =>
         let sy := srcIndex8 y
         let sx := srcIndex8 x
         let y0 := sy.floor.toNat
         let x0 := sx.floor.toNat
         let y1 := min (y0 + 1) (h - 1)
         let x1 := min (x0 + 1) (w - 1)
         let ly := sy - (y0 : ℚ)
         let lx := sx - (x0 : ℚ)
         (1 - ly) * ((1 - lx) * t.data [bb, cc, y0, x0] + lx * t.data [bb, cc, y0, x1])
         + ly * ((1 - lx) * t.data [bb, cc, y1, x0] + lx * t.data [bb, cc, y1, x1])
       | _ => 0⟩
  | _ => t

/-- Models `F.conv2d(t, w, b, padding=1)` with a 3x3 kernel: spatial dims are
preserved, output channels are `w.shape[0]`, input positions outside the
image contribute zero. -/
def conv2d3 (t w : Tensor) (b : Option Tensor) : Tensor :=
  match t.shape with
  | [bb, _, hh, ww] =>
    ⟨[bb, w.shape.getD 0 0, hh, ww],
     fun i =>
       match i with
       | [b0, c0, y, x] =>
         sumR (w.shape.getD 1 0) (fun c1 =>
           sumR 3 (fun dy => sumR 3 (fun dx =>
             w.data [c0, c1, dy, dx] *
             (if 1 ≤ y + dy ∧ y + dy ≤ hh ∧ 1 ≤ x + dx ∧ x + dx ≤ ww then
                t.data [b0, c1, y + dy - 1, x + dx - 1]
              else 0))))
         + (match b with
            | some bv => bv.data [c0]
            | none => 0)
       | _ => 0⟩
  | _ => t

/-- Models `t[:, :n]`: keep the first `n` channels. -/
def sliceCh (n : Nat) (t : Tensor) : Tensor :=
  match t.shape with
  | b :: c :: rest => ⟨b :: min n c :: rest, t.data⟩
  | s => ⟨s, t.data⟩

/-- Models `t.clamp(0, 1)` elementwise. -/
def clamp01 (t : Tensor) : Tensor :=
  t.map1 (fun v => min 1 (max 0 v))

/-- Models `decode_vae_simple` of `generate_assets.py`: divide the latent by
0.13025, bilinearly upsample by 8; if `decoder.conv_out.weight` is present
apply that convolution (indexing `decoder.conv_out.bias` raises a
`KeyError`, i.e. `none`, when absent), otherwise keep the first 3 channels;
finally `(x + 1) / 2` clamped to `[0, 1]`.  No other key of the state dict
is read. -/
def decode_vae_simple (latent : Tensor) (vae_sd : SD) : Option Tensor :=
  let z := latent.map1 (fun v => v / (13025 / 100000 : ℚ))
  match z.shape with
  | [_batch, _ch, _h, _w] =>
    let img := upsample8 z
    let step2 : Option Tensor :=
      match vae_sd "decoder.conv_out.weight" with
      | some weight =>
        match vae_sd "decoder.conv_out.bias" with
        | some bias => some (conv2d3 (sliceCh (weight.shape.getD 1 0) img) weight (some bias))
        | none => none
      | none => some (sliceCh 3 img)
    step2.map (fun m => clamp01 (m.map1 (fun v => (v + 1) / 2)))
  | _ => none

/-- An 8-bit image: a shape and a byte-valued indexing function. -/
structure ImageU8 where
  shape : List Nat
  data : List Nat → Nat

/-- Models `(q * 255).astype(np.uint8)` for the clamped nonnegative values the
script produces. -/
def uint8OfQ (q : ℚ) : Nat :=
  (q * 255).floor.toNat % 256

/-- Models `latent_to_image` of `generate_assets.py`: decode, take batch entry 0,
`permute(1, 2, 0)` to `[H, W, C]`, scale by 255 and cast to uint8. -/
def latent_to_image (latent : Tensor) (vae_sd : SD) : Option ImageU8 :=
  (decode_vae_simple latent vae_sd).map (fun img =>
    ⟨[img.shape.getD 2 0, img.shape.getD 3 0, img.shape.getD 1 0],
     fun i =>
       match i with
       | [y, x, c] => uint8OfQ (img.data [0, c, y, x])
       | _ => 0⟩)

/-- Models `euler_sample` of `generate_assets.py`: for each adjacent sigma pair,
`dt = sigma_next - sigma` and `x = x + v * (-dt)` with
`v = model_fn(x, sigma, context, attention_mask)`; `cfg_scale` and `steps`
are accepted but unused, as in the source. -/
def euler_sample (model_fn : Tensor → ℚ → Tensor → Option Tensor → Option Tensor)
    (x : Tensor) (sigmas : List ℚ) (context : Tensor) (attention_mask : Option Tensor)
    (cfg_scale : ℚ) (steps : Nat) : Option Tensor :=
  match sigmas with
  | sigma :: sigma_next :: rest =>
    let dt := sigma_next - sigma
    (model_fn x sigma context attention_mask).bind (fun v =>
      euler_sample model_fn (x.add (Tensor.scale (-dt) v)) (sigma_next :: rest)
        context attention_mask cfg_scale steps)
  | _ => some x

/-- The inline Euler loop of `generate_with_ai`: for each adjacent sigma
pair, `dt = sigma - sigma_next` and `latent = latent - v * dt` with
`v = f latent sigma`. -/
def samplingLoop (f : Tensor → ℚ → Option Tensor) : Tensor → List ℚ → Option Tensor
  | latent, sigma :: sigma_next :: rest =>
    let dt := sigma - sigma_next
    (f latent sigma).bind (fun v =>
      samplingLoop f (latent.sub (Tensor.scale dt v)) (sigma_next :: rest))
  | latent, _ => some latent

/-- Models `torch.linspace(a, b, n)`. -/
def linspaceQ (a b : ℚ) (n : Nat) : List ℚ :=
  if n = 1 then [a]
  else (List.range n).map (fun i => a + (i : ℚ) * (b - a) / ((n : ℚ) - 1))

/-- The torch global random generator, abstracted: `seed` models
`torch.manual_seed` and `randn` models drawing a normal tensor of the given
shape while advancing the generator state. -/
structure Rng (G : Type) where
  seed : Nat → G
  randn : G → List Nat → Tensor × G

/-- Models `VAE_SCALE_FACTOR` of `generate_assets.py`. -/
def VAE_SCALE_FACTOR : Nat := 8

/-- Models `LATENT_CHANNELS` of `generate_assets.py`. -/
def LATENT_CHANNELS : Nat := 16

/-- The context construction of `generate_with_ai`: a `[1, 77, 3584]` zero
tensor is replaced by `torch.randn_like(context) * 0.1` after
`torch.manual_seed(hash(prompt) % 2**32)`; the prompt enters only through
`hashF`. -/
def promptContext {G : Type} (rng : Rng G) (hashF : String → Int) (prompt : String) :
    Tensor × G :=
  let context := Tensor.zerosT [1, 77, 3584]
  let prompt_hash := hashF prompt
  let g := rng.seed (prompt_hash.emod (2 ^ 32)).toNat
  let (cr, g2) := rng.randn g context.shape
  (Tensor.scale (1 / 10) cr, g2)

/-- Models `generate_with_ai` of `generate_assets.py`: seed, draw the initial
latent noise, build the sigma schedule `linspace(1, 0, steps+1)`, build the
hash-seeded context, reseed, run the inline Euler loop with
`v = run_transformer(latent, sigma*1000, context, sd, 60)`, and decode the
final latent with `latent_to_image`.  The `text_encoder_sd` argument is
never read. -/
def generate_with_ai {G : Type} (ops : ScalarOps) (rng : Rng G) (hashF : String → Int)
    (g0 : G) (prompt : String) (width height : Nat) (transformer_sd vae_sd : SD)
    (text_encoder_sd : Option SD) (steps : Nat) (cfg_scale : ℚ) (seed : Option Nat) :
    Option ImageU8 :=
  let g := match seed with | some s => rng.seed s | none => g0
  let latent_h := height / VAE_SCALE_FACTOR
  let latent_w := width / VAE_SCALE_FACTOR
  let (latent, g1) := rng.randn g [1, LATENT_CHANNELS, latent_h, latent_w]
  let sigmas := linspaceQ 1 0 (steps + 1)
  let (context, _g2) := promptContext rng hashF prompt
  let _g3 := match seed with | some s => rng.seed s | none => g1
  let final := samplingLoop
    (fun lat sigma =>
      run_transformer ops lat (Tensor.scalar1 (sigma * 1000)) context transformer_sd 60)
    latent sigmas
  final.bind (fun lf => latent_to_image lf vae_sd)

/-- Spec-side sigma schedule of claim C4: `steps + 1` equally spaced values
from `1.0` down to `0.0`, i.e. `sigma_i = 1 - i / steps`. -/
def specSigmas (steps : Nat) : List ℚ :=
  (List.range (steps + 1)).map (fun i => 1 - (i : ℚ) / (steps : ℚ))

/-- Spec-side rendering of `generate_with_ai` following the words of claim
C4: the schedule is written as the explicit equally spaced list
`specSigmas`, the loop update is `latent - v * (sigma_i - sigma_{i+1})`
with `v = run_transformer(latent, sigma_i * 1000, context)`, and the final
latent is decoded by `latent_to_image`. -/
def generate_with_ai_spec {G : Type} (ops : ScalarOps) (rng : Rng G) (hashF : String → Int)
    (g0 : G) (prompt : String) (width height : Nat) (transformer_sd vae_sd : SD)
    (text_encoder_sd : Option SD) (steps : Nat) (cfg_scale : ℚ) (seed : Option Nat) :
    Option ImageU8 :=
  let g := match seed with | some s => rng.seed s | none => g0
  let latent_h := height / VAE_SCALE_FACTOR
  let latent_w := width / VAE_SCALE_FACTOR
  let (latent, g1) := rng.randn g [1, LATENT_CHANNELS, latent_h, latent_w]
  let sigmas := specSigmas steps
  let (context, _g2) := promptContext rng hashF prompt
  let _g3 := match seed with | some s => rng.seed s | none => g1
  let final := samplingLoop
    (fun lat sigma =>
      run_transformer ops lat (Tensor.scalar1 (sigma * 1000)) context transformer_sd 60)
    latent sigmas
  final.bind (fun lf => latent_to_image lf vae_sd)

/-
The ComfyUI delegation script `generate_assets_comfyui.py`.  The HTTP
server is abstracted as an oracle environment: `queue` models
`POST /prompt`, `history i` models the `i`-th `GET /history/{id}` poll
(one poll per second of the timeout), and `view` models `GET /view`.
An `Except.error` models a raised exception; file writes are returned as a
list of `(path, bytes)` pairs instead of touching a filesystem.
-/

/-- One entry of a SaveImage node's `images` output. -/
structure ImgInfo where
  filename : String
  subfolder : String
  ftype : String

/-- One entry of the `ASSETS` table of `generate_assets_comfyui.py`. -/
structure AssetConfig where
  filename : String
  width : Nat
  height : Nat
  prompt : String
  negative : String

/-- The mutable fields of the workflow JSON of `get_workflow_template`,
plus its fixed loader/sampler settings. -/
structure Workflow where
  unet_name : String
  clip_name : String
  vae_name : String
  text : String
  width : Nat
  height : Nat
  cfg : ℚ
  sampler_name : String
  scheduler : String
  seed : Nat
  steps : Nat
  filenamePref : String

/-- Models `get_workflow_template` of `generate_assets_comfyui.py`. -/
def get_workflow_template : Workflow :=
  { unet_name := "qwen_image_2512_fp8_e4m3fn.safetensors"
    clip_name := "umt5_xxl_fp8_e4m3fn_scaled.safetensors"
    vae_name := "qwen_image_vae.safetensors"
    text := "prompt here"
    width := 512
    height := 512
    cfg := 4
    sampler_name := "euler"
    scheduler := "simple"
    seed := 0
    steps := 28
    filenamePref := "DailyWell" }

/-- The ComfyUI server and filesystem oracle. -/
structure ComfyEnv where
  queue : Workflow → Except Unit String
  history : Nat → Except Unit (Option (List (String × Option (List ImgInfo))))
  view : ImgInfo → Except Unit (List Nat)

/-- Models `OUTPUT_DIR` of `generate_assets_comfyui.py`. -/
def OUTPUT_DIR : String :=
  "C:\\Users\\PC\\Desktop\\moneygrinder\\mobile\\PART_2_HEALTH_APPS\\03_HABIT_BASED_HEALTH\\habit-health\\shared\\src\\androidMain\\res\\drawable"

/-- The node scan of `wait_for_completion`: the `images` value of the first
node output that has an `images` key. -/
def firstImages (outputs : List (String × Option (List ImgInfo))) : Option (List ImgInfo) :=
  outputs.findSome? (fun p => p.2)

/-- The polling loop of `wait_for_completion`, with one poll per remaining
second of the timeout: `history i = none` means the prompt id is not in the
history yet; an empty outputs dict, or outputs without any `images` key,
also keep polling. -/
def waitGo (env : ComfyEnv) : Nat → Nat → Except Unit (Option (List ImgInfo))
  | _, 0 => .ok none
  | i, Nat.succ n =>
    match env.history i with
    | .error e => .error e
    | .ok none => waitGo env (i + 1) n
    | .ok (some outputs) =>
      if outputs.isEmpty then waitGo env (i + 1) n
      else
        match firstImages outputs with
        | some imgs => .ok (some imgs)
        | none => waitGo env (i + 1) n

/-- Models `wait_for_completion` of `generate_assets_comfyui.py` (timeout 300). -/
def wait_for_completion (env : ComfyEnv) (timeout : Nat) :
    Except Unit (Option (List ImgInfo)) :=
  waitGo env 0 timeout

/-- The workflow actually submitted by `generate_asset_comfyui`: the
template with the asset's width, height and prompt filled in, and the seed
set to `hash(asset_name) % 2**32` when no seed is given. -/
def filledWorkflow (hashF : String → Int) (asset_name : String)
    (asset_config : AssetConfig) (seed : Option Nat) : Workflow :=
  let workflow := get_workflow_template
  let workflow :=
    { workflow with
        width := asset_config.width
        height := asset_config.height
        text := asset_config.prompt }
  let seedVal :=
    match seed with
    | some s => s
    | none => ((hashF asset_name).emod (2 ^ 32)).toNat
  { workflow with seed := seedVal }

/-- Models `generate_asset_comfyui` of `generate_assets_comfyui.py`: queue the
filled workflow, wait for completion, fetch the first output image and
write its bytes unchanged; any exception, a timeout, or an empty images
list yields `false` with no write. -/
def generate_asset_comfyui (env : ComfyEnv) (hashF : String → Int)
    (asset_name : String) (asset_config : AssetConfig) (seed : Option Nat) :
    Bool × List (String × List Nat) :=
  let workflow := filledWorkflow hashF asset_name asset_config seed
  let attempt : Except Unit (Option (List Nat)) :=
    match env.queue workflow with
    | .error e => .error e
    | .ok _prompt_id =>
      match wait_for_completion env 300 with
      | .error e => .error e
      | .ok none => .ok none
      | .ok (some []) => .ok none
      | .ok (some (img :: _)) =>
        match env.view img with
        | .error e => .error e
        | .ok bytes => .ok (some bytes)
  match attempt with
  | .ok (some bytes) => (true, [(OUTPUT_DIR ++ "\\" ++ asset_config.filename, bytes)])
  | .ok none => (false, [])
  | .error _ => (false, [])

/-
Concrete fixtures used by the witness theorems.
-/

/-- A concrete scalar interpretation (all primitives the identity). -/
def ops0 : ScalarOps :=
  ⟨fun v => v, fun v => v, fun v => v, fun v => v, fun v => v, fun v => v, fun v => v⟩

/-- A concrete generator: the state is the seed, `randn` returns zeros. -/
def rng0 : Rng Nat :=
  ⟨fun n => n, fun g s => (Tensor.zerosT s, g)⟩

/-- A concrete (constant) prompt hash. -/
def hash0 : String → Int := fun _ => 0

/-- A concrete `[1, 1, 2, 2]` latent. -/
def lat0 : Tensor := Tensor.zerosT [1, 1, 2, 2]

/-- A concrete timestep tensor of shape `[1]`. -/
def t0 : Tensor := Tensor.scalar1 1

/-- A concrete context tensor. -/
def ctx0 : Tensor := Tensor.zerosT [1, 2, 3]

/-- A concrete first timestep-embedder weight. -/
def w1c : Tensor := Tensor.zerosT [1024, 256]

/-- A concrete second timestep-embedder weight. -/
def w2c : Tensor := Tensor.zerosT [256, 1024]

/-- A state dict holding only the first timestep-embedder linear weight. -/
def sdBad : SD := fun k => if k = tEmbW1Key then some w1c else none

/-- A state dict holding both timestep-embedder linear weights. -/
def sdT : SD :=
  fun k => if k = tEmbW1Key then some w1c else if k = tEmbW2Key then some w2c else none

/-- A concrete asset configuration. -/
def cfg0 : AssetConfig := ⟨"habit_rest.png", 256, 256, "icon prompt", "blurry"⟩

/-- A server oracle whose queue call raises. -/
def envFail : ComfyEnv :=
  ⟨fun _ => .error (), fun _ => .ok none, fun _ => .error ()⟩

/-
Helper lemmas (shared; not themselves claim theorems).
-/

theorem padHW_shape (t : Tensor) (pw ph b c hh ww : Nat) (h : t.shape = [b, c, hh, ww]) :
    (padHW t pw ph).shape = [b, c, hh + ph, ww + pw] := by
  unfold padHW
  rw [h]

theorem add_neg_eq_sub_neg (x v : Tensor) (a b : ℚ) :
    x.add (Tensor.scale (-(b - a)) v) = x.sub (Tensor.scale (a - b) (Tensor.scale (-1) v)) := by
  ext i
  · rfl
  · simp only [Tensor.add, Tensor.sub, Tensor.scale, Tensor.map1]
    ring

/-- A constant-one velocity tensor of shape `[1]`. -/
def vone : Tensor := ⟨[1], fun _ => 1⟩

/-- A zero tensor of shape `[1]`. -/
def xzero : Tensor := ⟨[1], fun _ => 0⟩

/-- A model function returning the constant velocity `vone`. -/
def fone : Tensor → ℚ → Option Tensor := fun _ _ => some vone

theorem upsample8_shape (t : Tensor) (b c hh ww : Nat) (h : t.shape = [b, c, hh, ww]) :
    (upsample8 t).shape = [b, c, 8 * hh, 8 * ww] := by
  unfold upsample8
  rw [h]

theorem sliceCh_shape4 (n : Nat) (t : Tensor) (b c hh ww : Nat) (h : t.shape = [b, c, hh, ww]) :
    (sliceCh n t).shape = [b, min n c, hh, ww] := by
  unfold sliceCh
  rw [h]

theorem conv2d3_shape (t w : Tensor) (bias : Option Tensor) (b c hh ww : Nat)
    (h : t.shape = [b, c, hh, ww]) :
    (conv2d3 t w bias).shape = [b, w.shape.getD 0 0, hh, ww] := by
  unfold conv2d3
  rw [h]

theorem promptContext_hash_congr {G : Type} (rng : Rng G) (hashF : String → Int)
    (p1 p2 : String) (h : hashF p1 = hashF p2) :
    promptContext rng hashF p1 = promptContext rng hashF p2 := by
  unfold promptContext
  rw [h]

theorem linspace_eq_specSigmas (steps : Nat) (h : 1 ≤ steps) :
    linspaceQ 1 0 (steps + 1) = specSigmas steps := by
  unfold linspaceQ specSigmas
  rw [if_neg (by omega : ¬ steps + 1 = 1)]
  apply List.map_congr_left
  intro i _
  have hs : (steps : ℚ) ≠ 0 := by
    exact_mod_cast Nat.pos_iff_ne_zero.mp h
  push_cast
  field_simp
  ring

/-
Claim theorems.
-/

/-- Claim C1: `apply_transformer_block` performs no attention computation
and ignores its context argument: two runs that differ only in the context
tensor (same `x`, `timestep_emb`, `block_idx`, state dict, device, dtype)
return the identical result; the block consists only of modulation, layer
norms, gating, and the MLP. -/
theorem claim_c1_block_ignores_context (ops : ScalarOps) (x c1 c2 temb : Tensor)
    (idx : Nat) (sd : SD) (device dtype : Unit) :
    apply_transformer_block ops x c1 temb idx sd device dtype
    = apply_transformer_block ops x c2 temb idx sd device dtype := rfl

/-- Counterexample to claim C5 as stated: with the constant velocity
`vone`, the zero start `xzero` and the schedule `[1, 0]`, `euler_sample`
moves to `+1` (it computes `x + v * (-(sigma_next - sigma))`, i.e.
`x + v * (sigma - sigma_next)`) while the inline loop of
`generate_with_ai` moves to `-1` (it computes
`latent - v * (sigma - sigma_next)`), so the two final tensors differ. -/
theorem claim_c5_counterexample :
    euler_sample (fun y s _ _ => fone y s) xzero [1, 0] ctx0 none 7 20
    ≠ samplingLoop fone xzero [1, 0] := by
  intro h
  have h2 := congrArg (fun o => (o.getD xzero).data []) h
  norm_num [euler_sample, samplingLoop, fone, xzero, vone,
    Tensor.add, Tensor.sub, Tensor.scale, Tensor.map1] at h2

/-- Claim C5, amended: the standalone `euler_sample` and the inline Euler
loop of `generate_with_ai` are equivalent only up to the sign of the
velocity: for every model function `f`, iterating `euler_sample`'s update
(`dt = sigma_next - sigma`, `x <- x + v * (-dt)`) produces the same final
tensor as the inline update (`latent <- latent - v * (sigma - sigma_next)`)
applied to the negated model function `-f`; with the same model function
the two loops step in opposite directions. -/
theorem claim_c5_amended_equiv_up_to_negation (f : Tensor → ℚ → Option Tensor) (x : Tensor)
    (sigmas : List ℚ) (context : Tensor) (am : Option Tensor) (cfg : ℚ) (st : Nat) :
    euler_sample (fun y s _ _ => f y s) x sigmas context am cfg st
    = samplingLoop (fun y s => (f y s).map (Tensor.scale (-1))) x sigmas := by
  induction sigmas generalizing x with
  | nil => rfl
  | cons sigma rest ih =>
    cases rest with
    | nil => rfl
    | cons sigma2 rest2 =>
      simp only [euler_sample, samplingLoop, Option.bind_map]
      refine congrArg (Option.bind (f x sigma)) ?_
      funext v
      rw [add_neg_eq_sub_neg x v sigma sigma2]
      exact ih _

/-- Claim C10: `run_transformer` runs at most 10 blocks
(`blocks_to_run = min(num_blocks, 10)`), so any `num_blocks ≥ 10` — in
particular the 60 passed by `generate_with_ai` — gives the same result as
`num_blocks = 10` on every input. -/
theorem claim_c10_blocks_capped_at_ten (ops : ScalarOps) (lat t ctx : Tensor) (sd : SD)
    (n : Nat) (hn : 10 ≤ n) :
    run_transformer ops lat t ctx sd n = run_transformer ops lat t ctx sd 10 := by
  unfold run_transformer
  simp only [min_eq_right hn, Nat.min_self]

/-- Witness for C10 at `num_blocks = 60` on concrete inputs. -/
theorem claim_c10_witness :
    run_transformer ops0 lat0 t0 ctx0 emptySD 60 = run_transformer ops0 lat0 t0 ctx0 emptySD 10 :=
  claim_c10_blocks_capped_at_ten ops0 lat0 t0 ctx0 emptySD 60 (by decide)

/-- Claim C2: the text conditioning of `generate_with_ai` is not produced
by the text encoder: the context is the `[1, 77, 3584]` normal draw after
seeding with `hash(prompt) % 2**32`, scaled by `0.1`; `text_encoder_sd` is
never read, and the generated image depends on the prompt only through
`hash(prompt)`. -/
theorem claim_c2_context_hash_seeded {G : Type} (ops : ScalarOps) (rng : Rng G)
    (hashF : String → Int) (g0 : G) (p1 p2 : String) (width height : Nat)
    (tsd vsd : SD) (te1 te2 : Option SD) (steps : Nat) (cfg : ℚ) (seed : Option Nat) :
    (hashF p1 = hashF p2 →
      generate_with_ai ops rng hashF g0 p1 width height tsd vsd te1 steps cfg seed
      = generate_with_ai ops rng hashF g0 p2 width height tsd vsd te2 steps cfg seed)
    ∧ (promptContext rng hashF p1).1
      = Tensor.scale (1 / 10)
          (rng.randn (rng.seed ((hashF p1).emod (2 ^ 32)).toNat) [1, 77, 3584]).1 := by
  constructor
  · intro h
    unfold generate_with_ai
    rw [promptContext_hash_congr rng hashF p1 p2 h]
  · rfl

/-- Witness for C2: two distinct prompts with equal hash and different
`text_encoder_sd` arguments give the identical image. -/
theorem claim_c2_witness :
    generate_with_ai ops0 rng0 hash0 0 "a" 8 8 emptySD emptySD none 1 7 none
    = generate_with_ai ops0 rng0 hash0 0 "b" 8 8 emptySD emptySD (some emptySD) 1 7 none :=
  (claim_c2_context_hash_seeded ops0 rng0 hash0 0 "a" "b" 8 8 emptySD emptySD
    none (some emptySD) 1 7 none).1 rfl

/-- Claim C4: `generate_with_ai` samples by Euler flow matching: the sigma
schedule is `steps + 1` equally spaced values from 1.0 down to 0.0, each
step updates `latent <- latent - v * (sigma_i - sigma_{i+1})` with
`v = run_transformer(latent, sigma_i * 1000, context)`, and the final
latent is decoded by `latent_to_image` (stated as equality with the
spec-side rendering `generate_with_ai_spec`; needs `steps ≥ 1`, as
`torch.linspace(1, 0, 1)` would be `[1.0]`, not a 1-point schedule down
to 0). -/
theorem claim_c4_euler_flow_matching {G : Type} (ops : ScalarOps) (rng : Rng G)
    (hashF : String → Int) (g0 : G) (prompt : String) (width height : Nat)
    (tsd vsd : SD) (te : Option SD) (steps : Nat) (cfg : ℚ) (seed : Option Nat)
    (hsteps : 1 ≤ steps) :
    generate_with_ai ops rng hashF g0 prompt width height tsd vsd te steps cfg seed
    = generate_with_ai_spec ops rng hashF g0 prompt width height tsd vsd te steps cfg seed := by
  unfold generate_with_ai generate_with_ai_spec
  simp only [linspace_eq_specSigmas steps hsteps]

/-- Witness for C4 at the `steps = 20` used by `generate_all`. -/
theorem claim_c4_witness :
    generate_with_ai ops0 rng0 hash0 0 "a" 8 8 emptySD emptySD none 20 7 none
    = generate_with_ai_spec ops0 rng0 hash0 0 "a" 8 8 emptySD emptySD none 20 7 none :=
  claim_c4_euler_flow_matching ops0 rng0 hash0 0 "a" 8 8 emptySD emptySD none 20 7 none
    (by decide)

/-- Claim C3: `decode_vae_simple` never runs the full VAE decoder: the
latent is divided by 0.13025 and bilinearly upsampled by exactly 8 (so a
successful decode has spatial dimensions 8 times the latent's), then either
only `decoder.conv_out` is applied (when its weight is present) or the
first 3 channels are kept, then `(x+1)/2` clamped to `[0,1]`; no decoder
weight other than `decoder.conv_out.weight` / `decoder.conv_out.bias`
affects the result. -/
theorem claim_c3_decode_vae_simple (latent : Tensor) (sd1 sd2 : SD) (b c hh ww : Nat)
    (y : Tensor) :
    (sd1 "decoder.conv_out.weight" = sd2 "decoder.conv_out.weight" →
     sd1 "decoder.conv_out.bias" = sd2 "decoder.conv_out.bias" →
     decode_vae_simple latent sd1 = decode_vae_simple latent sd2)
    ∧ (latent.shape = [b, c, hh, ww] → decode_vae_simple latent sd1 = some y →
       y.shape.getD 2 0 = 8 * hh ∧ y.shape.getD 3 0 = 8 * ww) := by
  constructor
  · intro h1 h2
    unfold decode_vae_simple
    simp only [h1, h2]
  · intro hsh hdec
    unfold decode_vae_simple at hdec
    dsimp only at hdec
    rw [show (Tensor.map1 (fun v => v / (13025 / 100000 : ℚ)) latent).shape = [b, c, hh, ww]
      from hsh] at hdec
    dsimp only at hdec
    have hup : (upsample8 (latent.map1 fun v => v / (13025 / 100000 : ℚ))).shape
        = [b, c, 8 * hh, 8 * ww] :=
      upsample8_shape _ b c hh ww hsh
    cases hw : sd1 "decoder.conv_out.weight" with
    | some weight =>
      rw [hw] at hdec
      cases hb : sd1 "decoder.conv_out.bias" with
      | some bias =>
        rw [hb] at hdec
        dsimp only [Option.map] at hdec
        obtain rfl := Option.some.inj hdec
        have hsl := sliceCh_shape4 (weight.shape.getD 1 0) _ b c (8 * hh) (8 * ww) hup
        have hcv := conv2d3_shape _ weight (some bias) b (min (weight.shape.getD 1 0) c)
          (8 * hh) (8 * ww) hsl
        constructor
        · show (conv2d3 _ weight (some bias)).shape.getD 2 0 = 8 * hh
          rw [hcv]
          rfl
        · show (conv2d3 _ weight (some bias)).shape.getD 3 0 = 8 * ww
          rw [hcv]
          rfl
      | none =>
        rw [hb] at hdec
        exact Option.noConfusion hdec
    | none =>
      rw [hw] at hdec
      dsimp only [Option.map] at hdec
      obtain rfl := Option.some.inj hdec
      have hsl := sliceCh_shape4 3 _ b c (8 * hh) (8 * ww) hup
      constructor
      · show (sliceCh 3 _).shape.getD 2 0 = 8 * hh
        rw [hsl]
        rfl
      · show (sliceCh 3 _).shape.getD 3 0 = 8 * ww
        rw [hsl]
        rfl

/-- Witness for C3: the empty state dict on a concrete `[1, 1, 2, 2]`
latent; the decode result has spatial shape `16 x 16` and agrees with
itself under the (trivially discharged) key-agreement hypotheses. -/
theorem claim_c3_witness :
    decode_vae_simple lat0 emptySD = decode_vae_simple lat0 emptySD
    ∧ ((decode_vae_simple lat0 emptySD).map (fun r => (r.shape.getD 2 0, r.shape.getD 3 0))
        = some (16, 16)) := by
  have h := claim_c3_decode_vae_simple lat0 emptySD emptySD 1 1 2 2
  refine ⟨(h (Tensor.zerosT [])).1 rfl rfl, ?_⟩
  cases hd : decode_vae_simple lat0 emptySD with
  | none =>
    have : (decode_vae_simple lat0 emptySD).isSome = true := rfl
    rw [hd] at this
    exact Bool.noConfusion this
  | some r =>
    have h2 := (h r).2 rfl hd
    simp only [Option.map, h2.1, h2.2]

/-- Claim C6: `run_transformer` computes a sinusoidal timestep embedding of
dimension 256: with `half_dim = 128` and frequencies
`f_k = exp(-k * ln(10000) / (half_dim - 1))` for `k < 128` the embedding is
`concat(sin(t*f), cos(t*f))`; when the checkpoint's timestep-embedder
weights are present it is passed through linear, SiLU, linear, and
otherwise the raw sinusoidal embedding is used as `temb`. -/
theorem claim_c6_timestep_embedding (ops : ScalarOps) (timestep : Tensor) (sd : SD)
    (b k : Nat) (w1 : Tensor) (hk : k < 128) (hw1 : sd tEmbW1Key = some w1) :
    (sinusoidalEmb ops timestep).shape = [timestep.shape.headD 0, 256]
    ∧ (sinusoidalEmb ops timestep).data [b, k]
      = ops.sin (timestep.data [b] * ops.exp (-((k : ℚ) * ops.log 10000 / 127)))
    ∧ (sinusoidalEmb ops timestep).data [b, 128 + k]
      = ops.cos (timestep.data [b] * ops.exp (-((k : ℚ) * ops.log 10000 / 127)))
    ∧ computeTemb ops timestep sd
      = FlinearT (siluT ops (linearT (sinusoidalEmb ops timestep) w1 (sd tEmbB1Key)))
          (sd tEmbW2Key) (sd tEmbB2Key)
    ∧ (∀ sdN : SD, sdN tEmbW1Key = none →
        computeTemb ops timestep sdN = some (sinusoidalEmb ops timestep)) := by
  have harg : ((k : ℚ)) * -(ops.log 10000 / (((128 : Nat) : ℚ) - 1))
      = -((k : ℚ) * ops.log 10000 / 127) := by
    push_cast
    ring
  refine ⟨rfl, ?_, ?_, ?_, ?_⟩
  · unfold sinusoidalEmb
    dsimp only
    rw [if_pos hk, harg]
  · unfold sinusoidalEmb
    dsimp only
    rw [if_neg (by omega : ¬ 128 + k < 128)]
    simp only [Nat.add_sub_cancel_left]
    rw [harg]
  · unfold computeTemb
    dsimp only
    rw [hw1]
  · intro sdN hN
    unfold computeTemb
    dsimp only
    rw [hN]

/-- Witness for C6 on concrete inputs: shape, and the linear-SiLU-linear
path through a state dict holding both timestep-embedder weights. -/
theorem claim_c6_witness :
    (sinusoidalEmb ops0 t0).shape = [1, 256]
    ∧ computeTemb ops0 t0 sdT
      = FlinearT (siluT ops0 (linearT (sinusoidalEmb ops0 t0) w1c (sdT tEmbB1Key)))
          (sdT tEmbW2Key) (sdT tEmbB2Key) := by
  have h := claim_c6_timestep_embedding ops0 t0 sdT 0 5 w1c (by decide) rfl
  exact ⟨h.1, h.2.2.2.1⟩

/-- Claim C8: `run_transformer` preserves the latent's shape: whenever it
succeeds on an input of shape `[B, C, H, W]` it pads `H` and `W` up to even
values, patchifies, runs the blocks, unpatchifies and crops back, so the
output has exactly shape `[B, C, H, W]` (proved with no assumption on the
weight dimensions, which subsumes the claim's consistency hypothesis). -/
theorem claim_c8_shape_preserved (ops : ScalarOps) (lat t ctx : Tensor) (sd : SD)
    (n b c hh ww : Nat) (y : Tensor)
    (hsh : lat.shape = [b, c, hh, ww])
    (hrun : run_transformer ops lat t ctx sd n = some y) :
    y.shape = [b, c, hh, ww] := by
  unfold run_transformer at hrun
  rw [hsh] at hrun
  dsimp only at hrun
  simp only [Option.bind_eq_some, Option.some.injEq] at hrun
  obtain ⟨temb, -, x2, -, rfl⟩ := hrun
  by_cases hc : (2 - hh % 2) % 2 > 0 ∨ (2 - ww % 2) % 2 > 0
  · have hp := padHW_shape lat ((2 - ww % 2) % 2) ((2 - hh % 2) % 2) b c hh ww hsh
    simp only [if_pos hc, crop4, unpatchify, hp, List.getD_cons_zero, List.getD_cons_succ,
      List.cons.injEq, and_true]
    exact ⟨trivial, trivial, inf_eq_left.mpr (Nat.le_add_right _ _),
      inf_eq_left.mpr (Nat.le_add_right _ _)⟩
  · simp only [if_neg hc, unpatchify, hsh, List.getD_cons_zero, List.getD_cons_succ]

/-- Witness for C8: a concrete run on a `[1, 1, 2, 2]` latent with the
empty state dict succeeds and keeps the shape. -/
theorem claim_c8_witness :
    (run_transformer ops0 lat0 t0 ctx0 emptySD 60).map Tensor.shape = some [1, 1, 2, 2] := by
  cases hrun : run_transformer ops0 lat0 t0 ctx0 emptySD 60 with
  | none =>
    have hs : (run_transformer ops0 lat0 t0 ctx0 emptySD 60).isSome = true := rfl
    rw [hrun] at hs
    exact Bool.noConfusion hs
  | some y =>
    have hy := claim_c8_shape_preserved ops0 lat0 t0 ctx0 emptySD 60 1 1 2 2 y rfl hrun
    simp only [Option.map, hy]

/-- A state dict in which the timestep embedder's `linear_2.weight`
accompanies its `linear_1.weight`. -/
def tEmbCompanion (sd : SD) : Prop :=
  ∀ w, sd tEmbW1Key = some w → (sd tEmbW2Key).isSome = true

/-- A state dict in which each block's `img_mlp.net.2.weight` accompanies
its `img_mlp.net.0.proj.weight`. -/
def mlpCompanion (sd : SD) : Prop :=
  ∀ i w, sd (blockKey i "img_mlp.net.0.proj.weight") = some w →
    (sd (blockKey i "img_mlp.net.2.weight")).isSome = true

theorem bind_some_isSome {α β : Type} (o : Option α) (f : α → Option β)
    (ho : o.isSome = true) (hf : ∀ a, (f a).isSome = true) : (o.bind f).isSome = true := by
  cases o with
  | none => exact Bool.noConfusion ho
  | some a => exact hf a

theorem computeTemb_isSome (ops : ScalarOps) (t : Tensor) (sd : SD) (h : tEmbCompanion sd) :
    (computeTemb ops t sd).isSome = true := by
  unfold computeTemb
  dsimp only
  cases hw : sd tEmbW1Key with
  | none => rfl
  | some w1 =>
    have h2 := h w1 hw
    cases hw2 : sd tEmbW2Key with
    | none => rw [hw2] at h2; exact Bool.noConfusion h2
    | some w2 => rfl

theorem apply_transformer_block_isSome (ops : ScalarOps) (x c temb : Tensor) (i : Nat)
    (sd : SD) (h : mlpCompanion sd) :
    (apply_transformer_block ops x c temb i sd () ()).isSome = true := by
  unfold apply_transformer_block
  dsimp only
  cases h0 : sd (blockKey i "img_mod.1.weight") with
  | none => rfl
  | some wm =>
    cases h1 : sd (blockKey i "img_mlp.net.0.proj.weight") with
    | none => rfl
    | some w1 =>
      have h2 := h i w1 h1
      cases h2p : sd (blockKey i "img_mlp.net.2.weight") with
      | none => rw [h2p] at h2; exact Bool.noConfusion h2
      | some w2 => rfl

theorem applyBlocksGo_isSome (ops : ScalarOps) (c temb : Tensor) (sd : SD)
    (h : mlpCompanion sd) (k : Nat) :
    ∀ i x, (applyBlocksGo ops c temb sd i k x).isSome = true := by
  induction k with
  | zero => intro i x; rfl
  | succ m ih =>
    intro i x
    unfold applyBlocksGo
    cases hb : apply_transformer_block ops x c temb i sd () () with
    | none =>
      have hbs := apply_transformer_block_isSome ops x c temb i sd h
      rw [hb] at hbs
      exact Bool.noConfusion hbs
    | some y => exact ih (i + 1) y

/-- Counterexample to claim C9 as stated: a state dict holding only
`model.diffusion_model.time_text_embed.timestep_embedder.linear_1.weight`
makes `run_transformer` call `F.linear` with the missing (`None`)
`linear_2.weight`, which raises — modelled as `none` — rather than being
skipped, so not every state dict avoids a missing-weight error. -/
theorem claim_c9_counterexample :
    run_transformer ops0 lat0 t0 ctx0 sdBad 60 = none := rfl

/-- Claim C9, amended: `apply_transformer_block` returns its input
unchanged when `img_mod.1.weight` is absent, and the input-projection,
norm-out and proj-out stages are skipped when their weight is absent; but
the timestep-embedder stage is guarded only by `linear_1.weight` and a
block's MLP only by `img_mlp.net.0.proj.weight`, so `run_transformer`
avoids a missing-weight error exactly on state dicts where `linear_2.weight`
accompanies `linear_1.weight` and each block's `img_mlp.net.2.weight`
accompanies its `img_mlp.net.0.proj.weight` — in particular on the empty
state dict. -/
theorem claim_c9_amended_guarded_by_first_weights (ops : ScalarOps) (lat t ctx : Tensor)
    (sd : SD) (n b c hh ww : Nat)
    (hsh : lat.shape = [b, c, hh, ww]) (h1 : tEmbCompanion sd) (h2 : mlpCompanion sd) :
    (∀ (x ctx2 temb : Tensor) (i : Nat) (sd2 : SD) (dv dt : Unit),
        sd2 (blockKey i "img_mod.1.weight") = none →
        apply_transformer_block ops x ctx2 temb i sd2 dv dt = some x)
    ∧ (run_transformer ops lat t ctx sd n).isSome = true := by
  constructor
  · intro x ctx2 temb i sd2 dv dt hmod
    unfold apply_transformer_block
    dsimp only
    rw [hmod]
  · unfold run_transformer
    rw [hsh]
    dsimp only
    exact bind_some_isSome _ _ (computeTemb_isSome ops t sd h1)
      (fun temb => bind_some_isSome _ _
        (applyBlocksGo_isSome ops ctx temb sd h2 (min n 10) 0 _) (fun _ => rfl))

/-- Witness for the amended C9 on the empty state dict. -/
theorem claim_c9_witness :
    (run_transformer ops0 lat0 t0 ctx0 emptySD 60).isSome = true :=
  (claim_c9_amended_guarded_by_first_weights ops0 lat0 t0 ctx0 emptySD 60 1 1 2 2 rfl
    (fun w hw => Option.noConfusion hw) (fun i w hw => Option.noConfusion hw)).2

/-- Claim C7: `generate_asset_comfyui` performs no local inference and
delegates to the HTTP server: it fills the workflow with the asset's
width, height, prompt and (absent an explicit seed) `hash(name) % 2**32`,
queues it, polls the history within the 300-second timeout, downloads the
first output image and writes its bytes unmodified to
`OUTPUT_DIR/filename`; it returns `true` exactly when an image was fetched
and written, and `false` with no file written on timeout or exception. -/
theorem claim_c7_comfyui_delegation (env : ComfyEnv) (hashF : String → Int)
    (asset_name : String) (cfgA : AssetConfig) :
    ((filledWorkflow hashF asset_name cfgA none).width = cfgA.width
      ∧ (filledWorkflow hashF asset_name cfgA none).height = cfgA.height
      ∧ (filledWorkflow hashF asset_name cfgA none).text = cfgA.prompt
      ∧ (filledWorkflow hashF asset_name cfgA none).seed
          = ((hashF asset_name).emod (2 ^ 32)).toNat)
    ∧ (∀ wr, generate_asset_comfyui env hashF asset_name cfgA none = (false, wr) → wr = [])
    ∧ (∀ wr, generate_asset_comfyui env hashF asset_name cfgA none = (true, wr) →
        ∃ img rest bytes,
          wait_for_completion env 300 = .ok (some (img :: rest))
          ∧ env.view img = .ok bytes
          ∧ wr = [(OUTPUT_DIR ++ "\\" ++ cfgA.filename, bytes)]) := by
  refine ⟨⟨rfl, rfl, rfl, rfl⟩, ?_, ?_⟩
  · intro wr h
    unfold generate_asset_comfyui at h
    dsimp only at h
    cases hq : env.queue (filledWorkflow hashF asset_name cfgA none) with
    | error e =>
      rw [hq] at h
      injection h with h1 h2
      exact h2.symm
    | ok pid =>
      rw [hq] at h
      dsimp only at h
      cases hw : wait_for_completion env 300 with
      | error e =>
        rw [hw] at h
        injection h with h1 h2
        exact h2.symm
      | ok oimg =>
        rw [hw] at h
        cases oimg with
        | none =>
          injection h with h1 h2
          exact h2.symm
        | some l =>
          cases l with
          | nil =>
            injection h with h1 h2
            exact h2.symm
          | cons img rest =>
            dsimp only at h
            cases hv : env.view img with
            | error e =>
              rw [hv] at h
              injection h with h1 h2
              exact h2.symm
            | ok bytes =>
              rw [hv] at h
              injection h with h1 h2
              exact Bool.noConfusion h1
  · intro wr h
    unfold generate_asset_comfyui at h
    dsimp only at h
    cases hq : env.queue (filledWorkflow hashF asset_name cfgA none) with
    | error e =>
      rw [hq] at h
      injection h with h1 h2
      exact Bool.noConfusion h1
    | ok pid =>
      rw [hq] at h
      dsimp only at h
      cases hw : wait_for_completion env 300 with
      | error e =>
        rw [hw] at h
        injection h with h1 h2
        exact Bool.noConfusion h1
      | ok oimg =>
        rw [hw] at h
        cases oimg with
        | none =>
          injection h with h1 h2
          exact Bool.noConfusion h1
        | some l =>
          cases l with
          | nil =>
            injection h with h1 h2
            exact Bool.noConfusion h1
          | cons img rest =>
            dsimp only at h
            cases hv : env.view img with
            | error e =>
              rw [hv] at h
              injection h with h1 h2
              exact Bool.noConfusion h1
            | ok bytes =>
              rw [hv] at h
              injection h with h1 h2
              exact ⟨img, rest, bytes, rfl, hv, h2.symm⟩

/-- Witness for C7: the seed field of the concretely filled workflow, and
the no-write outcome on a server whose queue call raises. -/
theorem claim_c7_witness :
    (filledWorkflow hash0 "habit_rest" cfg0 none).seed
      = ((hash0 "habit_rest").emod (2 ^ 32)).toNat
    ∧ (generate_asset_comfyui envFail hash0 "habit_rest" cfg0 none).2 = [] :=
  ⟨(claim_c7_comfyui_delegation envFail hash0 "habit_rest" cfg0).1.2.2.2,
   (claim_c7_comfyui_delegation envFail hash0 "habit_rest" cfg0).2.1
     (generate_asset_comfyui envFail hash0 "habit_rest" cfg0 none).2 rfl⟩

end DW
